import Mathlib

/-!
Verification of the system-monitor server (src/app.js) against its
natural-language specification.  The JavaScript source is shallowly
embedded: numbers are modelled as rationals, `Number.toFixed` as
round-to-nearest on scaled rationals, fallible subsystems as `Option`,
and the per-connection timer logic as an explicit event-trace state
machine.
-/

namespace SysMon

/-- Numeric value produced by JavaScript `x.toFixed(d)`: `x` rounded to
`d` decimal places (round half up, as JS does for the non-negative
values arising here). -/
def toFixedQ (d : ℕ) (q : ℚ) : ℚ := (round (q * 10 ^ d) : ℚ) / 10 ^ d

/-- Decimal digits of `n`, left-padded with zeros to `width` characters. -/
def natPad (width : ℕ) (n : ℕ) : String :=
  let s := Nat.repr n
  String.mk (List.replicate (width - s.length) '0') ++ s

/-- String produced by JavaScript `q.toFixed(d)` for `q ≥ 0` and `d ≥ 1`:
the decimal rendering, with exactly `d` digits after the point, of
`toFixedQ d q`. -/
def renderFixed (d : ℕ) (q : ℚ) : String :=
  let n := (round (q * 10 ^ d)).toNat
  Nat.repr (n / 10 ^ d) ++ "." ++ natPad d (n % 10 ^ d)

/-- Decimal rendering of an integer, as JavaScript template interpolation
renders an integral number. -/
def intStr (z : ℤ) : String :=
  if z < 0 then "-" ++ Nat.repr z.natAbs else Nat.repr z.toNat

/-- The `units` array of `formatBytes` in src/app.js. -/
def bytesUnits : List String := ["B", "KB", "MB", "GB", "TB"]

/-- The `while (size >= 1024 && unitIndex < units.length - 1)` loop of
`formatBytes`.  The loop body runs at most `units.length - 1 = 4` times,
so fuel `5` never runs out before the guard fails. -/
def scaleLoop : ℕ → ℚ → ℕ → ℚ × ℕ
  | 0, size, unitIndex => (size, unitIndex)
  | fuel + 1, size, unitIndex =>
    if 1024 ≤ size ∧ unitIndex < bytesUnits.length - 1 then
      scaleLoop fuel (size / 1024) (unitIndex + 1)
    else
      (size, unitIndex)

/-- Scaled size and unit index computed by `formatBytes` in src/app.js. -/
def formatBytesScaled (bytes : ℚ) : ℚ × ℕ := scaleLoop 5 bytes 0

/-- `formatBytes` from src/app.js. -/
def formatBytes (bytes : ℚ) : String :=
  let p := formatBytesScaled bytes
  renderFixed 2 p.1 ++ " " ++ bytesUnits.getD p.2 ""

/-- JavaScript truncation toward zero, as applied by the `%` operator. -/
def jsTrunc (q : ℚ) : ℤ := if q < 0 then ⌈q⌉ else ⌊q⌋

/-- The JavaScript `%` (remainder) operator on numbers:
`a % b = a - b * trunc(a / b)`. -/
def jsFmod (a b : ℚ) : ℚ := a - b * (jsTrunc (a / b) : ℚ)

/-- `formatUptime` from src/app.js. -/
def formatUptime (seconds : ℚ) : String :=
  let days := ⌊seconds / (3600 * 24)⌋
  let hours := ⌊jsFmod seconds (3600 * 24) / 3600⌋
  let minutes := ⌊jsFmod seconds 3600 / 60⌋
  let secs := ⌊jsFmod seconds 60⌋
  intStr days ++ "d " ++ intStr hours ++ "h " ++ intStr minutes ++ "m " ++
    intStr secs ++ "s"

/-- One address entry of `os.networkInterfaces()`. -/
structure NetIfaceAddr where
  address : String
  family : String
  internal : Bool
deriving DecidableEq

/-- `getPrivateIP` from src/app.js: the nested `forEach` loops that
overwrite `privateIP` on every non-internal IPv4 address, starting from
the sentinel string. -/
def getPrivateIP (interfaceTable : List (String × List NetIfaceAddr)) : String :=
  interfaceTable.foldl
    (fun acc entry =>
      entry.2.foldl
        (fun ip iface =>
          if iface.family = "IPv4" ∧ iface.internal = false then iface.address
          else ip)
        acc)
    "Not found"

/-- CPU time-in-state counters of one core, as reported by `os.cpus()`
(Node reports exactly the states user, nice, sys, idle, irq). -/
structure CPUTimes where
  user : ℚ
  nice : ℚ
  sys : ℚ
  idle : ℚ
  irq : ℚ
deriving DecidableEq

/-- `Object.values(cpu.times)` from src/app.js. -/
def cpuTimesValues (t : CPUTimes) : List ℚ := [t.user, t.nice, t.sys, t.idle, t.irq]

/-- `Object.values(cpu.times).reduce((acc, time) => acc + time, 0)`. -/
def cpuTimesTotal (t : CPUTimes) : ℚ :=
  (cpuTimesValues t).foldl (fun acc time => acc + time) 0

/-- One entry of `os.cpus()`. -/
structure CPUEntry where
  model : String
  speed : ℕ
  times : CPUTimes
deriving DecidableEq

/-- The `times` sub-object of one element of `getCPUInfo`'s result. The
`userVal`, `systemVal`, `idleVal` fields carry the numeric values that
are rendered into the adjacent percentage strings. -/
structure CoreTimesReport where
  user : String
  system : String
  idle : String
  userVal : ℚ
  systemVal : ℚ
  idleVal : ℚ
  rawTotal : ℚ
  rawUser : ℚ
  rawSystem : ℚ
  rawIdle : ℚ
deriving DecidableEq

/-- One element of the array returned by `getCPUInfo` in src/app.js. -/
structure CoreReport where
  core : ℕ
  model : String
  speed : String
  times : CoreTimesReport
deriving DecidableEq

/-- The body of the `cpus.map((cpu, index) => ...)` callback in
`getCPUInfo` of src/app.js. -/
def getCPUCore (index : ℕ) (cpu : CPUEntry) : CoreReport :=
  let total := cpuTimesTotal cpu.times
  { core := index + 1
    model := cpu.model
    speed := Nat.repr cpu.speed ++ " MHz"
    times :=
      { user := renderFixed 1 (cpu.times.user / total * 100) ++ "%"
        system := renderFixed 1 (cpu.times.sys / total * 100) ++ "%"
        idle := renderFixed 1 (cpu.times.idle / total * 100) ++ "%"
        userVal := toFixedQ 1 (cpu.times.user / total * 100)
        systemVal := toFixedQ 1 (cpu.times.sys / total * 100)
        idleVal := toFixedQ 1 (cpu.times.idle / total * 100)
        rawTotal := total
        rawUser := cpu.times.user
        rawSystem := cpu.times.sys
        rawIdle := cpu.times.idle } }

/-- `getCPUInfo` from src/app.js. -/
def getCPUInfo (cpus : List CPUEntry) : List CoreReport :=
  cpus.mapIdx getCPUCore

/-- The record shape shared by `getMemoryInfo` and `getDiskInfo` in
src/app.js.  The `usedPctVal` / `freePctVal` fields carry the numeric
values rendered into the adjacent percentage strings. -/
structure UsageRec where
  total : String
  free : String
  used : String
  usedPercentage : String
  freePercentage : String
  usedPctVal : ℚ
  freePctVal : ℚ
  totalRaw : ℚ
  freeRaw : ℚ
  usedRaw : ℚ
deriving DecidableEq

/-- Result of `disk.check('/')`. -/
structure DiskStat where
  total : ℚ
  free : ℚ
deriving DecidableEq

/-- The record returned by the `catch` branch of `getDiskInfo` in
src/app.js when the disk subsystem is unavailable. -/
def degradedDiskRec : UsageRec :=
  { total := "N/A"
    free := "N/A"
    used := "N/A"
    usedPercentage := "0%"
    freePercentage := "0%"
    usedPctVal := 0
    freePctVal := 0
    totalRaw := 0
    freeRaw := 0
    usedRaw := 0 }

/-- `getDiskInfo` from src/app.js; `none` models `disk.check` throwing,
which the function catches internally. -/
def getDiskInfo : Option DiskStat → UsageRec
  | some info =>
    { total := formatBytes info.total
      free := formatBytes info.free
      used := formatBytes (info.total - info.free)
      usedPercentage := renderFixed 2 ((info.total - info.free) / info.total * 100) ++ "%"
      freePercentage := renderFixed 2 (info.free / info.total * 100) ++ "%"
      usedPctVal := toFixedQ 2 ((info.total - info.free) / info.total * 100)
      freePctVal := toFixedQ 2 (info.free / info.total * 100)
      totalRaw := info.total
      freeRaw := info.free
      usedRaw := info.total - info.free }
  | none => degradedDiskRec

/-- `getMemoryInfo` from src/app.js, over the values of `os.totalmem()`
and `os.freemem()`. -/
def getMemoryInfo (total free : ℚ) : UsageRec :=
  let used := total - free
  { total := formatBytes total
    free := formatBytes free
    used := formatBytes used
    usedPercentage := renderFixed 2 (used / total * 100) ++ "%"
    freePercentage := renderFixed 2 (free / total * 100) ++ "%"
    usedPctVal := toFixedQ 2 (used / total * 100)
    freePctVal := toFixedQ 2 (free / total * 100)
    totalRaw := total
    freeRaw := free
    usedRaw := used }

/-- The `os` sub-record of `getSystemInfo`'s result. -/
structure OSRec where
  platform : String
  osType : String
  release : String
  arch : String
  hostname : String
deriving DecidableEq

/-- The `network` sub-record of `getSystemInfo`'s result. -/
structure NetworkRec where
  privateIP : String
  hostname : String
  interfaceTable : List (String × List NetIfaceAddr)
deriving DecidableEq

/-- The full snapshot returned by `getSystemInfo` in src/app.js. -/
structure SystemRec where
  os : OSRec
  cpu : List CoreReport
  memory : UsageRec
  disk : UsageRec
  network : NetworkRec
  uptime : String
deriving DecidableEq

/-- The host state read by one `getSystemInfo` call: everything the
`os` module and `disk.check` report at that moment.  `diskStat = none`
models the disk subsystem being unavailable. -/
structure HostEnv where
  cpus : List CPUEntry
  totalmem : ℚ
  freemem : ℚ
  diskStat : Option DiskStat
  interfaceTable : List (String × List NetIfaceAddr)
  uptimeSeconds : ℚ
  platform : String
  osType : String
  release : String
  arch : String
  hostname : String

/-- `getSystemInfo` from src/app.js. -/
def getSystemInfo (e : HostEnv) : SystemRec :=
  { os :=
      { platform := e.platform
        osType := e.osType
        release := e.release
        arch := e.arch
        hostname := e.hostname }
    cpu := getCPUInfo e.cpus
    memory := getMemoryInfo e.totalmem e.freemem
    disk := getDiskInfo e.diskStat
    network :=
      { privateIP := getPrivateIP e.interfaceTable
        hostname := e.hostname
        interfaceTable := e.interfaceTable }
    uptime := formatUptime e.uptimeSeconds }

/-- Events observed by one WebSocket session after its attach: a firing
of its 1000 ms interval timer, the peer closing the connection, or a
socket error. -/
inductive SessEvent where
  | tick : SessEvent
  | peerClose : SessEvent
  | sockError : SessEvent
deriving DecidableEq

/-- Per-session state in the `wss.on('connection')` handler of
src/app.js: whether `ws.readyState === WebSocket.OPEN`, and whether the
`setInterval` handle is still active (not yet cleared). -/
structure SessState where
  readyOpen : Bool
  intervalActive : Bool
deriving DecidableEq

/-- State right after the connection handler ran: socket open, interval
started. -/
def sessInit : SessState := { readyOpen := true, intervalActive := true }

/-- One event of the connection handler: a tick delivers one snapshot
iff the interval is still set and the socket is open; the `close`
handler clears the interval (and the socket is no longer open); the
`error` handler clears the interval.  Returns the new state and the
number of snapshot deliveries caused by the event. -/
def sessStep : SessState → SessEvent → SessState × ℕ
  | st, SessEvent.tick => (st, if st.intervalActive && st.readyOpen then 1 else 0)
  | _, SessEvent.peerClose => ({ readyOpen := false, intervalActive := false }, 0)
  | st, SessEvent.sockError => ({ st with intervalActive := false }, 0)

/-- Total deliveries over an event trace starting from a given state. -/
def sessRunFrom : SessState → List SessEvent → ℕ
  | _, [] => 0
  | st, e :: rest =>
    let p := sessStep st e
    p.2 + sessRunFrom p.1 rest

/-- Total snapshot deliveries of one session over its whole lifetime:
the one immediate send performed by the connection handler before the
interval is created, plus whatever the subsequent events deliver. -/
def sessionDeliveries (events : List SessEvent) : ℕ :=
  1 + sessRunFrom sessInit events

/-- The interval passed to `setInterval` in src/app.js, in ms. -/
def updateIntervalMs : ℕ := 1000

/-- An HTTP JSON reply as produced by the control endpoints: status code
plus the single key/value pair of the JSON body. -/
structure HttpReply where
  status : ℕ
  jsonKey : String
  jsonValue : String
deriving DecidableEq

/-- The shell command run by `POST /system/restart`. -/
def restartCommand : String := "sudo shutdown -r now"

/-- The shell command run by `POST /system/shutdown`. -/
def shutdownCommand : String := "sudo shutdown -h now"

/-- The `POST /system/restart` handler from src/app.js, over the
outcome of `exec restartCommand` (`some err` = failure with cause
`err`, `none` = success). -/
def restartEndpoint : Option String → HttpReply
  | some _ => { status := 500, jsonKey := "error", jsonValue := "Failed to restart system" }
  | none => { status := 200, jsonKey := "message", jsonValue := "System is restarting" }

/-- The `POST /system/shutdown` handler from src/app.js, over the
outcome of `exec shutdownCommand`. -/
def shutdownEndpoint : Option String → HttpReply
  | some _ => { status := 500, jsonKey := "error", jsonValue := "Failed to shutdown system" }
  | none => { status := 200, jsonKey := "message", jsonValue := "System is shutting down" }

/-- The Bool form of the non-loopback IPv4 test in `getPrivateIP`. -/
def isPrivateCandidate (iface : NetIfaceAddr) : Bool :=
  iface.family == "IPv4" && !iface.internal

/-- Formalisation of the spec wording for private-address selection: all
non-loopback IPv4 addresses of the host, in enumeration order
(interface-name order, then address order within each interface). -/
def privateCandidates (tbl : List (String × List NetIfaceAddr)) : List String :=
  (((tbl.map Prod.snd).flatten).filter isPrivateCandidate).map NetIfaceAddr.address

/-! ## Helper lemmas -/

theorem cpuTimesTotal_eq (t : CPUTimes) :
    cpuTimesTotal t = t.user + t.nice + t.sys + t.idle + t.irq := by
  simp only [cpuTimesTotal, cpuTimesValues, List.foldl]
  ring

theorem toFixedQ_two_pair_sum (x y : ℚ) (h : x + y = 100) :
    |toFixedQ 2 x + toFixedQ 2 y - 100| ≤ 1 / 100 := by
  have hx : |x * 10 ^ 2 - (round (x * 10 ^ 2) : ℚ)| ≤ 1 / 2 := abs_sub_round (x * 10 ^ 2)
  have hy : |y * 10 ^ 2 - (round (y * 10 ^ 2) : ℚ)| ≤ 1 / 2 := abs_sub_round (y * 10 ^ 2)
  have hfinal : toFixedQ 2 x + toFixedQ 2 y - 100 =
      (((round (x * 10 ^ 2) : ℚ) - x * 10 ^ 2) + ((round (y * 10 ^ 2) : ℚ) - y * 10 ^ 2)) /
        10 ^ 2 := by
    unfold toFixedQ
    field_simp
    linear_combination (100 : ℚ) * h
  rw [hfinal, abs_div]
  have hnum : |((round (x * 10 ^ 2) : ℚ) - x * 10 ^ 2) +
      ((round (y * 10 ^ 2) : ℚ) - y * 10 ^ 2)| ≤ 1 := by
    calc |((round (x * 10 ^ 2) : ℚ) - x * 10 ^ 2) + ((round (y * 10 ^ 2) : ℚ) - y * 10 ^ 2)|
        ≤ |(round (x * 10 ^ 2) : ℚ) - x * 10 ^ 2| + |(round (y * 10 ^ 2) : ℚ) - y * 10 ^ 2| :=
          abs_add _ _
      _ ≤ 1 / 2 + 1 / 2 := by
          rw [abs_sub_comm ((round (x * 10 ^ 2) : ℚ)) (x * 10 ^ 2),
            abs_sub_comm ((round (y * 10 ^ 2) : ℚ)) (y * 10 ^ 2)]
          exact add_le_add hx hy
      _ = 1 := by norm_num
  have hden : |(10 : ℚ) ^ 2| = 100 := by norm_num
  rw [hden]
  have step : ∀ A : ℚ, |A| ≤ 1 → |A| / 100 ≤ 1 / 100 := fun A hA => by linarith
  exact step _ hnum

theorem toFixedQ_one_three_sum (x y z : ℚ) (h : x + y + z = 100) :
    |toFixedQ 1 x + toFixedQ 1 y + toFixedQ 1 z - 100| ≤ 1 / 10 := by
  have hx : |x * 10 ^ 1 - (round (x * 10 ^ 1) : ℚ)| ≤ 1 / 2 := abs_sub_round (x * 10 ^ 1)
  have hy : |y * 10 ^ 1 - (round (y * 10 ^ 1) : ℚ)| ≤ 1 / 2 := abs_sub_round (y * 10 ^ 1)
  have hz : |z * 10 ^ 1 - (round (z * 10 ^ 1) : ℚ)| ≤ 1 / 2 := abs_sub_round (z * 10 ^ 1)
  have key : ((round (x * 10 ^ 1) + round (y * 10 ^ 1) + round (z * 10 ^ 1) - 1000 : ℤ) : ℚ) =
      ((round (x * 10 ^ 1) : ℚ) - x * 10 ^ 1) + ((round (y * 10 ^ 1) : ℚ) - y * 10 ^ 1) +
        ((round (z * 10 ^ 1) : ℚ) - z * 10 ^ 1) := by
    push_cast
    linear_combination (10 : ℚ) * h
  have habs : |((round (x * 10 ^ 1) + round (y * 10 ^ 1) + round (z * 10 ^ 1) - 1000 : ℤ) : ℚ)| ≤
      3 / 2 := by
    rw [key]
    calc |((round (x * 10 ^ 1) : ℚ) - x * 10 ^ 1) + ((round (y * 10 ^ 1) : ℚ) - y * 10 ^ 1) +
          ((round (z * 10 ^ 1) : ℚ) - z * 10 ^ 1)|
        ≤ |((round (x * 10 ^ 1) : ℚ) - x * 10 ^ 1) + ((round (y * 10 ^ 1) : ℚ) - y * 10 ^ 1)| +
          |(round (z * 10 ^ 1) : ℚ) - z * 10 ^ 1| := abs_add _ _
      _ ≤ |(round (x * 10 ^ 1) : ℚ) - x * 10 ^ 1| + |(round (y * 10 ^ 1) : ℚ) - y * 10 ^ 1| +
          |(round (z * 10 ^ 1) : ℚ) - z * 10 ^ 1| := by
            have := abs_add ((round (x * 10 ^ 1) : ℚ) - x * 10 ^ 1)
              ((round (y * 10 ^ 1) : ℚ) - y * 10 ^ 1)
            linarith
      _ ≤ 1 / 2 + 1 / 2 + 1 / 2 := by
          rw [abs_sub_comm ((round (x * 10 ^ 1) : ℚ)) (x * 10 ^ 1),
            abs_sub_comm ((round (y * 10 ^ 1) : ℚ)) (y * 10 ^ 1),
            abs_sub_comm ((round (z * 10 ^ 1) : ℚ)) (z * 10 ^ 1)]
          linarith
      _ = 3 / 2 := by norm_num
  have hint : |round (x * 10 ^ 1) + round (y * 10 ^ 1) + round (z * 10 ^ 1) - 1000| ≤ 1 := by
    have h2 : |((round (x * 10 ^ 1) + round (y * 10 ^ 1) + round (z * 10 ^ 1) - 1000 : ℤ) : ℚ)| <
        2 := lt_of_le_of_lt habs (by norm_num)
    rw [← Int.cast_abs] at h2
    have h3 : |round (x * 10 ^ 1) + round (y * 10 ^ 1) + round (z * 10 ^ 1) - 1000| < 2 := by
      exact_mod_cast h2
    omega
  have hfinal : toFixedQ 1 x + toFixedQ 1 y + toFixedQ 1 z - 100 =
      ((round (x * 10 ^ 1) + round (y * 10 ^ 1) + round (z * 10 ^ 1) - 1000 : ℤ) : ℚ) / 10 := by
    unfold toFixedQ
    push_cast
    ring
  rw [hfinal, abs_div]
  have hnum : |((round (x * 10 ^ 1) + round (y * 10 ^ 1) + round (z * 10 ^ 1) - 1000 : ℤ) : ℚ)| ≤
      1 := by
    rw [← Int.cast_abs]
    exact_mod_cast hint
  have hden : |(10 : ℚ)| = 10 := by norm_num
  rw [hden]
  have step : ∀ A : ℚ, |A| ≤ 1 → |A| / 10 ≤ 1 / 10 := fun A hA => by linarith
  exact step _ hnum

theorem scaleLoop_spec (fuel : ℕ) :
    ∀ (size : ℚ) (uidx : ℕ), 4 - uidx ≤ fuel → uidx ≤ 4 → 0 ≤ size →
      uidx ≤ (scaleLoop fuel size uidx).2 ∧
      (scaleLoop fuel size uidx).2 ≤ 4 ∧
      (scaleLoop fuel size uidx).1 * 1024 ^ ((scaleLoop fuel size uidx).2 - uidx) = size ∧
      0 ≤ (scaleLoop fuel size uidx).1 ∧
      ((scaleLoop fuel size uidx).2 < 4 → (scaleLoop fuel size uidx).1 < 1024) ∧
      (uidx < (scaleLoop fuel size uidx).2 → 1 ≤ (scaleLoop fuel size uidx).1) := by
  induction fuel with
  | zero =>
    intro size uidx h1 h2 h3
    have h4 : uidx = 4 := by omega
    subst h4
    simp only [scaleLoop]
    exact ⟨le_refl _, le_refl _, by simp, h3, fun h => absurd h (lt_irrefl _),
      fun h => absurd h (lt_irrefl _)⟩
  | succ fuel ih =>
    intro size uidx h1 h2 h3
    by_cases hg : 1024 ≤ size ∧ uidx < bytesUnits.length - 1
    · have hstep : scaleLoop (fuel + 1) size uidx = scaleLoop fuel (size / 1024) (uidx + 1) := by
        simp only [scaleLoop, if_pos hg]
      rw [hstep]
      have hu4 : uidx < 4 := by
        have := hg.2
        simp only [bytesUnits, List.length] at this
        omega
      have hs1024 : (1024 : ℚ) ≤ size := hg.1
      have h3' : (0 : ℚ) ≤ size / 1024 := by positivity
      obtain ⟨a1, a2, a3, a4, a5, a6⟩ := ih (size / 1024) (uidx + 1) (by omega) (by omega) h3'
      refine ⟨by omega, a2, ?_, a4, a5, ?_⟩
      · have hk : (scaleLoop fuel (size / 1024) (uidx + 1)).2 - uidx =
            ((scaleLoop fuel (size / 1024) (uidx + 1)).2 - (uidx + 1)) + 1 := by omega
        rw [hk, pow_succ, ← mul_assoc, a3]
        field_simp
      · intro _
        rcases Nat.lt_or_ge (uidx + 1) (scaleLoop fuel (size / 1024) (uidx + 1)).2 with hlt | hge
        · exact a6 hlt
        · have hkeq : (scaleLoop fuel (size / 1024) (uidx + 1)).2 = uidx + 1 := by omega
          have hval : (scaleLoop fuel (size / 1024) (uidx + 1)).1 = size / 1024 := by
            have ha := a3
            rw [hkeq] at ha
            simpa using ha
          rw [hval, le_div_iff₀ (by norm_num : (0 : ℚ) < 1024)]
          linarith
    · have hstep : scaleLoop (fuel + 1) size uidx = (size, uidx) := by
        simp only [scaleLoop, if_neg hg]
      rw [hstep]
      push_neg at hg
      refine ⟨le_refl _, h2, by simp, h3, ?_, fun h => absurd h (lt_irrefl _)⟩
      intro h4lt
      by_contra hge
      push_neg at hge
      have := hg hge
      simp only [bytesUnits, List.length] at this
      omega

theorem toFixedQ_natCast (b : ℕ) : toFixedQ 2 ((b : ℕ) : ℚ) = (b : ℚ) := by
  unfold toFixedQ
  have hcast : ((b : ℚ) * 10 ^ 2) = (((b * 100 : ℕ) : ℤ) : ℚ) := by
    push_cast
    ring
  rw [hcast, round_intCast]
  push_cast
  ring

theorem int_floor_div_nat (s : ℚ) (c : ℕ) (hc : 0 < c) :
    ⌊s / (c : ℚ)⌋ = ⌊s⌋ / (c : ℤ) := by
  have hcq : (0 : ℚ) < (c : ℚ) := by exact_mod_cast hc
  have hcz : (0 : ℤ) < (c : ℤ) := by exact_mod_cast hc
  have hmod : 0 ≤ ⌊s⌋ % (c : ℤ) := Int.emod_nonneg ⌊s⌋ (ne_of_gt hcz)
  have hmodlt : ⌊s⌋ % (c : ℤ) < (c : ℤ) := Int.emod_lt_of_pos ⌊s⌋ hcz
  have hdiv : (c : ℤ) * (⌊s⌋ / (c : ℤ)) + ⌊s⌋ % (c : ℤ) = ⌊s⌋ := Int.ediv_add_emod ⌊s⌋ (c : ℤ)
  refine Int.floor_eq_iff.2 ⟨?_, ?_⟩
  · rw [le_div_iff₀ hcq]
    have hle : ((⌊s⌋ / (c : ℤ)) * (c : ℤ) : ℤ) ≤ ⌊s⌋ := by linarith [hdiv, hmod]
    calc ((⌊s⌋ / (c : ℤ) : ℤ) : ℚ) * (c : ℚ) = (((⌊s⌋ / (c : ℤ)) * (c : ℤ) : ℤ) : ℚ) := by
          push_cast
          ring
      _ ≤ ((⌊s⌋ : ℤ) : ℚ) := by exact_mod_cast hle
      _ ≤ s := Int.floor_le s
  · rw [div_lt_iff₀ hcq]
    have hlt2 : ⌊s⌋ + 1 ≤ ((⌊s⌋ / (c : ℤ)) + 1) * (c : ℤ) := by nlinarith [hdiv, hmodlt]
    calc s < ((⌊s⌋ : ℤ) : ℚ) + 1 := Int.lt_floor_add_one s
      _ ≤ ((⌊s⌋ / (c : ℤ) : ℤ) : ℚ) * (c : ℚ) + (c : ℚ) := by
          have hcast : (((⌊s⌋ + 1 : ℤ)) : ℚ) ≤ ((((⌊s⌋ / (c : ℤ)) + 1) * (c : ℤ) : ℤ) : ℚ) := by
            exact_mod_cast hlt2
          push_cast at hcast
          linarith
      _ = (((⌊s⌋ / (c : ℤ) : ℤ) : ℚ) + 1) * (c : ℚ) := by ring

theorem jsFmod_floor (s : ℚ) (hs : 0 ≤ s) (c : ℕ) (hc : 0 < c) :
    ⌊jsFmod s (c : ℚ)⌋ = ⌊s⌋ % (c : ℤ) := by
  have hnn : ¬ (s / (c : ℚ) < 0) := not_lt.2 (by positivity)
  have htr : jsTrunc (s / (c : ℚ)) = ⌊s / (c : ℚ)⌋ := by
    unfold jsTrunc
    rw [if_neg hnn]
  unfold jsFmod
  rw [htr, int_floor_div_nat s c hc]
  have hcast : (c : ℚ) * ((⌊s⌋ / (c : ℤ) : ℤ) : ℚ) = (((c : ℤ) * (⌊s⌋ / (c : ℤ)) : ℤ) : ℚ) := by
    push_cast
    ring
  rw [hcast, Int.floor_sub_int, Int.emod_def]

theorem getLastD_append {α : Type} (A B : List α) (d : α) :
    ((A ++ B).getLast?).getD d = (B.getLast?).getD ((A.getLast?).getD d) := by
  rw [List.getLast?_append]
  cases hB : B.getLast? with
  | none => simp
  | some x => simp

theorem getLastD_cons {α : Type} (a d : α) (xs : List α) :
    ((a :: xs).getLast?).getD d = (xs.getLast?).getD a := by
  have h := getLastD_append [a] xs d
  simpa using h

theorem isPrivateCandidate_iff (i : NetIfaceAddr) :
    isPrivateCandidate i = true ↔ (i.family = "IPv4" ∧ i.internal = false) := by
  simp [isPrivateCandidate]

theorem foldl_private_inner (l : List NetIfaceAddr) :
    ∀ acc : String,
      l.foldl
        (fun ip iface =>
          if iface.family = "IPv4" ∧ iface.internal = false then iface.address else ip) acc =
      (((l.filter isPrivateCandidate).map NetIfaceAddr.address).getLast?).getD acc := by
  induction l with
  | nil => intro acc; rfl
  | cons i rest ih =>
    intro acc
    by_cases h : i.family = "IPv4" ∧ i.internal = false
    · have hb : isPrivateCandidate i = true := (isPrivateCandidate_iff i).2 h
      simp only [List.foldl_cons]
      rw [if_pos h, ih i.address, List.filter_cons_of_pos hb, List.map_cons, getLastD_cons]
    · have hnb : ¬ isPrivateCandidate i = true := fun hb => h ((isPrivateCandidate_iff i).1 hb)
      simp only [List.foldl_cons]
      rw [if_neg h, List.filter_cons_of_neg hnb]
      exact ih acc

theorem getPrivateIP_foldl (tbl : List (String × List NetIfaceAddr)) :
    ∀ acc : String,
      tbl.foldl
        (fun acc entry =>
          entry.2.foldl
            (fun ip iface =>
              if iface.family = "IPv4" ∧ iface.internal = false then iface.address else ip)
            acc) acc =
      ((privateCandidates tbl).getLast?).getD acc := by
  induction tbl with
  | nil => intro acc; rfl
  | cons entry rest ih =>
    intro acc
    simp only [List.foldl_cons]
    rw [ih, foldl_private_inner entry.2 acc]
    have hsplit : privateCandidates (entry :: rest) =
        ((entry.2.filter isPrivateCandidate).map NetIfaceAddr.address) ++
          privateCandidates rest := by
      simp [privateCandidates]
    rw [hsplit, getLastD_append]

/-! ## Claim theorems -/

/-- C1: for every core, each reported CPU state percentage is that state's
counter divided by the sum of all state counters, times 100, rounded to 1
decimal place; and for the synthetic counter set user=200, sys=100,
idle=700 (no other states, total 1000) the results are userPct=20.0,
systemPct=10.0, idlePct=70.0. -/
theorem c1_cpu_state_percentages :
    (∀ (e : CPUEntry) (i : ℕ), 0 < cpuTimesTotal e.times →
      (getCPUCore i e).times.userVal =
          toFixedQ 1 (e.times.user /
            (e.times.user + e.times.nice + e.times.sys + e.times.idle + e.times.irq) * 100) ∧
        (getCPUCore i e).times.systemVal =
          toFixedQ 1 (e.times.sys /
            (e.times.user + e.times.nice + e.times.sys + e.times.idle + e.times.irq) * 100) ∧
        (getCPUCore i e).times.idleVal =
          toFixedQ 1 (e.times.idle /
            (e.times.user + e.times.nice + e.times.sys + e.times.idle + e.times.irq) * 100)) ∧
    ((getCPUCore 0 ⟨"core", 1000, ⟨200, 0, 100, 700, 0⟩⟩).times.userVal = 20 ∧
      (getCPUCore 0 ⟨"core", 1000, ⟨200, 0, 100, 700, 0⟩⟩).times.systemVal = 10 ∧
      (getCPUCore 0 ⟨"core", 1000, ⟨200, 0, 100, 700, 0⟩⟩).times.idleVal = 70 ∧
      cpuTimesTotal ⟨200, 0, 100, 700, 0⟩ = 1000) := by
  constructor
  · intro e i _
    have ht := cpuTimesTotal_eq e.times
    refine ⟨?_, ?_, ?_⟩ <;> simp only [getCPUCore, ht]
  · refine ⟨?_, ?_, ?_, ?_⟩ <;>
      norm_num [getCPUCore, cpuTimesTotal, cpuTimesValues, List.foldl, toFixedQ, round_eq]

/-- C1 witness: the general part of `c1_cpu_state_percentages`
instantiated at the synthetic counter set. -/
theorem c1_cpu_state_percentages_witness :
    0 < cpuTimesTotal (⟨200, 0, 100, 700, 0⟩ : CPUTimes) ∧
    ((getCPUCore 0 ⟨"core", 1000, ⟨200, 0, 100, 700, 0⟩⟩).times.userVal =
        toFixedQ 1 ((200 : ℚ) / (200 + 0 + 100 + 700 + 0) * 100) ∧
      (getCPUCore 0 ⟨"core", 1000, ⟨200, 0, 100, 700, 0⟩⟩).times.systemVal =
        toFixedQ 1 ((100 : ℚ) / (200 + 0 + 100 + 700 + 0) * 100) ∧
      (getCPUCore 0 ⟨"core", 1000, ⟨200, 0, 100, 700, 0⟩⟩).times.idleVal =
        toFixedQ 1 ((700 : ℚ) / (200 + 0 + 100 + 700 + 0) * 100)) :=
  ⟨by norm_num [cpuTimesTotal, cpuTimesValues, List.foldl],
    c1_cpu_state_percentages.1 ⟨"core", 1000, ⟨200, 0, 100, 700, 0⟩⟩ 0
      (by norm_num [cpuTimesTotal, cpuTimesValues, List.foldl])⟩

/-- C7: when the time-in-state counters consist of exactly the three
states user, sys and idle (the other Node states being zero), the
reported userPct + systemPct + idlePct is within ±0.1 of 100. -/
theorem c7_core_pct_sum_invariant (u s i : ℚ) (h : 0 < u + s + i) (idx : ℕ) (m : String)
    (sp : ℕ) :
    |(getCPUCore idx ⟨m, sp, ⟨u, 0, s, i, 0⟩⟩).times.userVal +
        (getCPUCore idx ⟨m, sp, ⟨u, 0, s, i, 0⟩⟩).times.systemVal +
        (getCPUCore idx ⟨m, sp, ⟨u, 0, s, i, 0⟩⟩).times.idleVal - 100| ≤ 1 / 10 := by
  have ht : cpuTimesTotal ⟨u, 0, s, i, 0⟩ = u + s + i := by
    rw [cpuTimesTotal_eq]
    ring
  simp only [getCPUCore, ht]
  apply toFixedQ_one_three_sum
  have hne : u + s + i ≠ 0 := ne_of_gt h
  field_simp
  ring

/-- C7 witness: the invariant at the synthetic counter set, where the sum
is exactly 100. -/
theorem c7_core_pct_sum_invariant_witness :
    (0 : ℚ) < 200 + 100 + 700 ∧
    |(getCPUCore 0 ⟨"core", 1000, ⟨200, 0, 100, 700, 0⟩⟩).times.userVal +
        (getCPUCore 0 ⟨"core", 1000, ⟨200, 0, 100, 700, 0⟩⟩).times.systemVal +
        (getCPUCore 0 ⟨"core", 1000, ⟨200, 0, 100, 700, 0⟩⟩).times.idleVal - 100| ≤ 1 / 10 :=
  ⟨by norm_num, c7_core_pct_sum_invariant 200 100 700 (by norm_num) 0 "core" 1000⟩

/-- C3 counterexample: the degraded disk record — which `sample()`
produces when the disk subsystem is unavailable — has percentages
summing to 0, not to 100 ± 0.01, so the claim fails as stated. -/
theorem c3_counterexample :
    (getDiskInfo none).usedRaw + (getDiskInfo none).freeRaw = (getDiskInfo none).totalRaw ∧
    (getDiskInfo none).usedPctVal + (getDiskInfo none).freePctVal = 0 ∧
    ¬ |(getDiskInfo none).usedPctVal + (getDiskInfo none).freePctVal - 100| ≤ 1 / 100 := by
  refine ⟨by simp [getDiskInfo, degradedDiskRec], by simp [getDiskInfo, degradedDiskRec],
    by norm_num [getDiskInfo, degradedDiskRec]⟩

/-- C3 (amended): for every memory record and every non-degraded disk
record (total > 0), usedBytes + freeBytes = totalBytes and
usedPct + freePct = 100.00 within ±0.01; the degraded disk record still
satisfies the byte identity (all raw values 0) but its percentages sum
to 0. -/
theorem c3_usage_invariants :
    (∀ total free : ℚ, 0 < total →
      (getMemoryInfo total free).usedRaw + (getMemoryInfo total free).freeRaw =
          (getMemoryInfo total free).totalRaw ∧
        |(getMemoryInfo total free).usedPctVal + (getMemoryInfo total free).freePctVal - 100| ≤
          1 / 100) ∧
    (∀ d : DiskStat, 0 < d.total →
      (getDiskInfo (some d)).usedRaw + (getDiskInfo (some d)).freeRaw =
          (getDiskInfo (some d)).totalRaw ∧
        |(getDiskInfo (some d)).usedPctVal + (getDiskInfo (some d)).freePctVal - 100| ≤
          1 / 100) ∧
    ((getDiskInfo none).usedRaw + (getDiskInfo none).freeRaw = (getDiskInfo none).totalRaw ∧
      (getDiskInfo none).usedPctVal + (getDiskInfo none).freePctVal = 0) := by
  refine ⟨?_, ?_, by simp [getDiskInfo, degradedDiskRec], by simp [getDiskInfo, degradedDiskRec]⟩
  · intro total free hpos
    constructor
    · simp only [getMemoryInfo]
      ring
    · simp only [getMemoryInfo]
      apply toFixedQ_two_pair_sum
      have hne : total ≠ 0 := ne_of_gt hpos
      field_simp
      ring
  · intro d hpos
    constructor
    · simp only [getDiskInfo]
      ring
    · simp only [getDiskInfo]
      apply toFixedQ_two_pair_sum
      have hne : d.total ≠ 0 := ne_of_gt hpos
      field_simp
      ring

/-- C3 witness: the amended invariant for a concrete memory record and a
concrete healthy disk record. -/
theorem c3_usage_invariants_witness :
    ((0 : ℚ) < 1024 ∧
      (getMemoryInfo 1024 256).usedRaw + (getMemoryInfo 1024 256).freeRaw =
          (getMemoryInfo 1024 256).totalRaw ∧
        |(getMemoryInfo 1024 256).usedPctVal + (getMemoryInfo 1024 256).freePctVal - 100| ≤
          1 / 100) ∧
    ((0 : ℚ) < (DiskStat.mk 4096 1024).total ∧
      (getDiskInfo (some ⟨4096, 1024⟩)).usedRaw + (getDiskInfo (some ⟨4096, 1024⟩)).freeRaw =
          (getDiskInfo (some ⟨4096, 1024⟩)).totalRaw ∧
        |(getDiskInfo (some ⟨4096, 1024⟩)).usedPctVal +
            (getDiskInfo (some ⟨4096, 1024⟩)).freePctVal - 100| ≤ 1 / 100) :=
  ⟨⟨by norm_num, c3_usage_invariants.1 1024 256 (by norm_num)⟩,
    ⟨by norm_num, c3_usage_invariants.2.1 ⟨4096, 1024⟩ (by norm_num)⟩⟩

/-- C6 counterexample: two different underlying failure causes produce
identical 500 replies whose message is a fixed string, so the underlying
cause is not carried verbatim to the caller. -/
theorem c6_counterexample :
    restartEndpoint (some "sudo: command not found") =
        restartEndpoint (some "permission denied") ∧
      (restartEndpoint (some "sudo: command not found")).status = 500 ∧
      (restartEndpoint (some "sudo: command not found")).jsonValue ≠ "sudo: command not found" ∧
      (shutdownEndpoint (some "permission denied")).jsonValue ≠ "permission denied" := by
  refine ⟨rfl, rfl, by decide, by decide⟩

/-- C6 (amended): a successful privileged command yields a 200 reply with
an acknowledgment message; any failure yields a 500 reply whose error
message is the fixed generic string of the endpoint (the underlying
cause is only logged, not returned). -/
theorem c6_control_endpoints :
    restartEndpoint none = ⟨200, "message", "System is restarting"⟩ ∧
    shutdownEndpoint none = ⟨200, "message", "System is shutting down"⟩ ∧
    (∀ cause : String, restartEndpoint (some cause) =
      ⟨500, "error", "Failed to restart system"⟩) ∧
    (∀ cause : String, shutdownEndpoint (some cause) =
      ⟨500, "error", "Failed to shutdown system"⟩) :=
  ⟨rfl, rfl, fun _ => rfl, fun _ => rfl⟩

/-- C2: formatBytes scales a byte count to the largest unit among
B, KB, MB, GB, TB such that the scaled value is < 1024 (unless already at
TB), and re-scaling the 2-decimal rendered value by the returned unit
recovers the original count within 1%; formatBytes(1073741824) =
"1.00 GB". -/
theorem c2_formatBytes_spec (b : ℕ) :
    (formatBytesScaled (b : ℚ)).2 ≤ 4 ∧
    (formatBytesScaled (b : ℚ)).1 * 1024 ^ (formatBytesScaled (b : ℚ)).2 = (b : ℚ) ∧
    ((formatBytesScaled (b : ℚ)).2 < 4 → (formatBytesScaled (b : ℚ)).1 < 1024) ∧
    (0 < (formatBytesScaled (b : ℚ)).2 →
      1024 ≤ (b : ℚ) / 1024 ^ ((formatBytesScaled (b : ℚ)).2 - 1)) ∧
    |toFixedQ 2 (formatBytesScaled (b : ℚ)).1 * 1024 ^ (formatBytesScaled (b : ℚ)).2 - (b : ℚ)| ≤
      (b : ℚ) / 100 ∧
    formatBytes ((1073741824 : ℕ) : ℚ) = "1.00 GB" := by
  obtain ⟨a1, a2, a3, a4, a5, a6⟩ :=
    scaleLoop_spec 5 (b : ℚ) 0 (by omega) (by omega) (by positivity)
  simp only [Nat.sub_zero] at a3
  have hb : (formatBytesScaled (b : ℚ)).1 * 1024 ^ (formatBytesScaled (b : ℚ)).2 = (b : ℚ) := a3
  refine ⟨a2, hb, a5, ?_, ?_, ?_⟩
  · intro hk
    have h1s : 1 ≤ (formatBytesScaled (b : ℚ)).1 := a6 hk
    have hexp : ((formatBytesScaled (b : ℚ)).2 - 1) + 1 = (formatBytesScaled (b : ℚ)).2 := by
      omega
    have hPpos : (0 : ℚ) < 1024 ^ ((formatBytesScaled (b : ℚ)).2 - 1) := by positivity
    have hpow : (1024 : ℚ) * 1024 ^ ((formatBytesScaled (b : ℚ)).2 - 1) =
        1024 ^ (formatBytesScaled (b : ℚ)).2 := by
      conv_rhs => rw [← hexp]
      rw [pow_succ, mul_comm]
    rw [le_div_iff₀ hPpos, hpow]
    calc (1024 : ℚ) ^ (formatBytesScaled (b : ℚ)).2 =
        1 * 1024 ^ (formatBytesScaled (b : ℚ)).2 := (one_mul _).symm
      _ ≤ (formatBytesScaled (b : ℚ)).1 * 1024 ^ (formatBytesScaled (b : ℚ)).2 :=
          mul_le_mul_of_nonneg_right h1s (by positivity)
      _ = (b : ℚ) := hb
  · rcases Nat.eq_zero_or_pos (formatBytesScaled (b : ℚ)).2 with hk0 | hkpos
    · have hs : (formatBytesScaled (b : ℚ)).1 = (b : ℚ) := by
        have := hb
        rw [hk0] at this
        simpa using this
      rw [hk0, hs, toFixedQ_natCast]
      have hnn : (0 : ℚ) ≤ (b : ℚ) / 100 := by positivity
      simpa using hnn
    · have h1s : 1 ≤ (formatBytesScaled (b : ℚ)).1 := a6 hkpos
      have hPpos : (0 : ℚ) < 1024 ^ (formatBytesScaled (b : ℚ)).2 := by positivity
      have hround : |toFixedQ 2 (formatBytesScaled (b : ℚ)).1 - (formatBytesScaled (b : ℚ)).1| ≤
          1 / 200 := by
        have h := abs_sub_round ((formatBytesScaled (b : ℚ)).1 * 10 ^ 2)
        have heq : toFixedQ 2 (formatBytesScaled (b : ℚ)).1 - (formatBytesScaled (b : ℚ)).1 =
            ((round ((formatBytesScaled (b : ℚ)).1 * 10 ^ 2) : ℚ) -
              (formatBytesScaled (b : ℚ)).1 * 10 ^ 2) / 10 ^ 2 := by
          unfold toFixedQ
          ring
        rw [heq, abs_div, abs_sub_comm]
        have hden : |(10 : ℚ) ^ 2| = 100 := by norm_num
        rw [hden]
        have step : ∀ A : ℚ, |A| ≤ 1 / 2 → |A| / 100 ≤ 1 / 200 := fun A hA => by linarith
        exact step _ h
      have hfact : toFixedQ 2 (formatBytesScaled (b : ℚ)).1 * 1024 ^ (formatBytesScaled (b : ℚ)).2 -
          (b : ℚ) =
          (toFixedQ 2 (formatBytesScaled (b : ℚ)).1 - (formatBytesScaled (b : ℚ)).1) *
            1024 ^ (formatBytesScaled (b : ℚ)).2 := by
        linear_combination hb
      rw [hfact, abs_mul]
      have habsP : |(1024 : ℚ) ^ (formatBytesScaled (b : ℚ)).2| =
          1024 ^ (formatBytesScaled (b : ℚ)).2 := abs_of_pos hPpos
      rw [habsP]
      have hbige : 1024 ^ (formatBytesScaled (b : ℚ)).2 ≤ (b : ℚ) := by
        calc (1024 : ℚ) ^ (formatBytesScaled (b : ℚ)).2 =
            1 * 1024 ^ (formatBytesScaled (b : ℚ)).2 := by ring
          _ ≤ (formatBytesScaled (b : ℚ)).1 * 1024 ^ (formatBytesScaled (b : ℚ)).2 :=
              mul_le_mul_of_nonneg_right h1s (le_of_lt hPpos)
          _ = (b : ℚ) := hb
      calc |toFixedQ 2 (formatBytesScaled (b : ℚ)).1 - (formatBytesScaled (b : ℚ)).1| *
            1024 ^ (formatBytesScaled (b : ℚ)).2 ≤
          (1 / 200) * 1024 ^ (formatBytesScaled (b : ℚ)).2 :=
            mul_le_mul_of_nonneg_right hround (le_of_lt hPpos)
        _ ≤ (1 / 200) * (b : ℚ) := by linarith
        _ ≤ (b : ℚ) / 100 := by
            have hbnn : (0 : ℚ) ≤ (b : ℚ) := by positivity
            linarith
  · norm_num [formatBytes, formatBytesScaled, scaleLoop, bytesUnits, renderFixed, natPad,
      round_eq]
    rfl

/-- C2 witness: the structural properties of `c2_formatBytes_spec`
instantiated at 1073741824 bytes, where the unit is GB (index 3) and the
scaled value is 1. -/
theorem c2_formatBytes_spec_witness :
    (formatBytesScaled ((1073741824 : ℕ) : ℚ)).2 < 4 ∧
    (formatBytesScaled ((1073741824 : ℕ) : ℚ)).1 < 1024 ∧
    0 < (formatBytesScaled ((1073741824 : ℕ) : ℚ)).2 ∧
    1024 ≤ ((1073741824 : ℕ) : ℚ) / 1024 ^ ((formatBytesScaled ((1073741824 : ℕ) : ℚ)).2 - 1) :=
  ⟨by norm_num [formatBytesScaled, scaleLoop, bytesUnits],
    (c2_formatBytes_spec 1073741824).2.2.1
      (by norm_num [formatBytesScaled, scaleLoop, bytesUnits]),
    by norm_num [formatBytesScaled, scaleLoop, bytesUnits],
    (c2_formatBytes_spec 1073741824).2.2.2.1
      (by norm_num [formatBytesScaled, scaleLoop, bytesUnits])⟩

/-- C9: formatUptime decomposes a non-negative seconds value into days,
hours, minutes and seconds by flooring at each unit boundary (the four
components are the floor-division/remainder chain of ⌊s⌋, which they
reconstruct exactly, with no rounding up); formatUptime(90061) =
"1d 1h 1m 1s". -/
theorem c9_formatUptime_floors (s : ℚ) (hs : 0 ≤ s) :
    formatUptime s =
      intStr (⌊s⌋ / 86400) ++ "d " ++ intStr (⌊s⌋ % 86400 / 3600) ++ "h " ++
        intStr (⌊s⌋ % 3600 / 60) ++ "m " ++ intStr (⌊s⌋ % 60) ++ "s" ∧
    86400 * (⌊s⌋ / 86400) + 3600 * (⌊s⌋ % 86400 / 3600) + 60 * (⌊s⌋ % 3600 / 60) + ⌊s⌋ % 60 =
      ⌊s⌋ ∧
    formatUptime (90061 : ℚ) = "1d 1h 1m 1s" := by
  refine ⟨?_, by omega, ?_⟩
  · have hdays : ⌊s / (3600 * 24 : ℚ)⌋ = ⌊s⌋ / 86400 := by
      have h := int_floor_div_nat s 86400 (by norm_num)
      have e1 : ((86400 : ℕ) : ℚ) = (3600 * 24 : ℚ) := by norm_num
      have e2 : ((86400 : ℕ) : ℤ) = (86400 : ℤ) := by norm_num
      rw [e1, e2] at h
      exact h
    have hfm86400 : ⌊jsFmod s (3600 * 24 : ℚ)⌋ = ⌊s⌋ % 86400 := by
      have h := jsFmod_floor s hs 86400 (by norm_num)
      have e1 : ((86400 : ℕ) : ℚ) = (3600 * 24 : ℚ) := by norm_num
      have e2 : ((86400 : ℕ) : ℤ) = (86400 : ℤ) := by norm_num
      rw [e1, e2] at h
      exact h
    have hfm3600 : ⌊jsFmod s (3600 : ℚ)⌋ = ⌊s⌋ % 3600 := by
      have h := jsFmod_floor s hs 3600 (by norm_num)
      have e1 : ((3600 : ℕ) : ℚ) = (3600 : ℚ) := by norm_num
      have e2 : ((3600 : ℕ) : ℤ) = (3600 : ℤ) := by norm_num
      rw [e1, e2] at h
      exact h
    have hhours : ⌊jsFmod s (3600 * 24 : ℚ) / 3600⌋ = ⌊s⌋ % 86400 / 3600 := by
      have h := int_floor_div_nat (jsFmod s (3600 * 24 : ℚ)) 3600 (by norm_num)
      have e1 : ((3600 : ℕ) : ℚ) = (3600 : ℚ) := by norm_num
      have e2 : ((3600 : ℕ) : ℤ) = (3600 : ℤ) := by norm_num
      rw [e1, e2, hfm86400] at h
      exact h
    have hminutes : ⌊jsFmod s (3600 : ℚ) / 60⌋ = ⌊s⌋ % 3600 / 60 := by
      have h := int_floor_div_nat (jsFmod s (3600 : ℚ)) 60 (by norm_num)
      have e1 : ((60 : ℕ) : ℚ) = (60 : ℚ) := by norm_num
      have e2 : ((60 : ℕ) : ℤ) = (60 : ℤ) := by norm_num
      rw [e1, e2, hfm3600] at h
      exact h
    have hsecs : ⌊jsFmod s (60 : ℚ)⌋ = ⌊s⌋ % 60 := by
      have h := jsFmod_floor s hs 60 (by norm_num)
      have e1 : ((60 : ℕ) : ℚ) = (60 : ℚ) := by norm_num
      have e2 : ((60 : ℕ) : ℤ) = (60 : ℤ) := by norm_num
      rw [e1, e2] at h
      exact h
    simp only [formatUptime]
    rw [hdays, hhours, hminutes, hsecs]
  · norm_num [formatUptime, jsFmod, jsTrunc, intStr]
    rfl

/-- C9 witness: the flooring decomposition applied at 90061 seconds. -/
theorem c9_formatUptime_floors_witness :
    (0 : ℚ) ≤ 90061 ∧ formatUptime (90061 : ℚ) = "1d 1h 1m 1s" :=
  ⟨by norm_num, (c9_formatUptime_floors 90061 (by norm_num)).2.2⟩

/-- C8: the private-address selection returns the last non-loopback IPv4
address in enumeration order (interface-name order, then address order
within each interface), falling back to the sentinel when none exists. -/
theorem c8_private_ip_last_match (tbl : List (String × List NetIfaceAddr)) :
    getPrivateIP tbl = ((privateCandidates tbl).getLast?).getD "Not found" := by
  simp only [getPrivateIP]
  exact getPrivateIP_foldl tbl "Not found"

/-- C10: when no non-loopback IPv4 address is reported at all, the
private-address selection returns the sentinel string "Not found". -/
theorem c10_private_ip_not_found (tbl : List (String × List NetIfaceAddr))
    (h : ∀ entry ∈ tbl, ∀ iface ∈ entry.2, iface.family = "IPv4" → iface.internal = true) :
    getPrivateIP tbl = "Not found" := by
  have hempty : privateCandidates tbl = [] := by
    unfold privateCandidates
    have hfil : ((tbl.map Prod.snd).flatten).filter isPrivateCandidate = [] := by
      rw [List.filter_eq_nil_iff]
      intro a ha
      rw [List.mem_flatten] at ha
      obtain ⟨l, hl, hal⟩ := ha
      rw [List.mem_map] at hl
      obtain ⟨entry, hentry, hsnd⟩ := hl
      subst hsnd
      intro hcand
      have hprop := (isPrivateCandidate_iff a).1 hcand
      have hint := h entry hentry a hal hprop.1
      rw [hprop.2] at hint
      simp at hint
    rw [hfil]
    rfl
  simp only [getPrivateIP]
  rw [getPrivateIP_foldl tbl "Not found", hempty]
  rfl

/-- C10 witness: a host reporting only the loopback interface. -/
theorem c10_private_ip_not_found_witness :
    (∀ entry ∈ ([("lo", [NetIfaceAddr.mk "127.0.0.1" "IPv4" true])] :
        List (String × List NetIfaceAddr)),
      ∀ iface ∈ entry.2, iface.family = "IPv4" → iface.internal = true) ∧
    getPrivateIP [("lo", [NetIfaceAddr.mk "127.0.0.1" "IPv4" true])] = "Not found" :=
  ⟨by decide,
    c10_private_ip_not_found [("lo", [NetIfaceAddr.mk "127.0.0.1" "IPv4" true])] (by decide)⟩

/-- C4: when the disk subsystem is unavailable, the snapshot is still
produced; its disk sub-record carries the sentinel values ("N/A" sizes,
"0%" percentages, zero raw bytes) and every other field (os, cpu,
memory, network, uptime) is computed as normal. -/
theorem c4_disk_degradation (e : HostEnv) :
    (getSystemInfo { e with diskStat := none }).disk = degradedDiskRec ∧
    (getSystemInfo { e with diskStat := none }).disk.total = "N/A" ∧
    (getSystemInfo { e with diskStat := none }).disk.free = "N/A" ∧
    (getSystemInfo { e with diskStat := none }).disk.used = "N/A" ∧
    (getSystemInfo { e with diskStat := none }).disk.usedPercentage = "0%" ∧
    (getSystemInfo { e with diskStat := none }).disk.freePercentage = "0%" ∧
    (getSystemInfo { e with diskStat := none }).disk.totalRaw = 0 ∧
    (getSystemInfo { e with diskStat := none }).disk.freeRaw = 0 ∧
    (getSystemInfo { e with diskStat := none }).disk.usedRaw = 0 ∧
    (getSystemInfo { e with diskStat := none }).os = (getSystemInfo e).os ∧
    (getSystemInfo { e with diskStat := none }).cpu = getCPUInfo e.cpus ∧
    (getSystemInfo { e with diskStat := none }).memory = getMemoryInfo e.totalmem e.freemem ∧
    (getSystemInfo { e with diskStat := none }).network = (getSystemInfo e).network ∧
    (getSystemInfo { e with diskStat := none }).uptime = formatUptime e.uptimeSeconds :=
  ⟨rfl, rfl, rfl, rfl, rfl, rfl, rfl, rfl, rfl, rfl, rfl, rfl, rfl, rfl⟩

theorem sessRunFrom_inactive (events : List SessEvent) :
    ∀ st : SessState, st.intervalActive = false → sessRunFrom st events = 0 := by
  induction events with
  | nil => intro st _; rfl
  | cons e rest ih =>
    intro st h
    cases e with
    | tick =>
      simp only [sessRunFrom, sessStep, h]
      simpa using ih st h
    | peerClose =>
      simp only [sessRunFrom, sessStep]
      simpa using ih { readyOpen := false, intervalActive := false } rfl
    | sockError =>
      simp only [sessRunFrom, sessStep]
      simpa using ih { st with intervalActive := false } rfl

theorem sessInit_readyOpen : sessInit.readyOpen = true := rfl

theorem sessInit_intervalActive : sessInit.intervalActive = true := rfl

theorem sessRunFrom_all_ticks (events : List SessEvent)
    (h : ∀ x ∈ events, x = SessEvent.tick) :
    sessRunFrom sessInit events = events.length := by
  induction events with
  | nil => rfl
  | cons e rest ih =>
    have he : e = SessEvent.tick := h e (by simp)
    subst he
    have hrest : ∀ x ∈ rest, x = SessEvent.tick := fun x hx => h x (by simp [hx])
    simp only [sessRunFrom, sessStep, sessInit_readyOpen, sessInit_intervalActive,
      List.length_cons]
    rw [ih hrest]
    simp [Nat.add_comm]

theorem sessRunFrom_until_stop (stop : SessEvent)
    (hstop : stop = SessEvent.peerClose ∨ stop = SessEvent.sockError)
    (pre post : List SessEvent) (h : ∀ x ∈ pre, x = SessEvent.tick) :
    sessRunFrom sessInit (pre ++ stop :: post) = pre.length := by
  induction pre with
  | nil =>
    rcases hstop with h1 | h1
    · subst h1
      simp only [List.nil_append, sessRunFrom, sessStep, List.length_nil]
      simpa using sessRunFrom_inactive post ⟨false, false⟩ rfl
    · subst h1
      simp only [List.nil_append, sessRunFrom, sessStep, List.length_nil]
      simpa using sessRunFrom_inactive post ⟨sessInit.readyOpen, false⟩ rfl
  | cons e rest ih =>
    have he : e = SessEvent.tick := h e (by simp)
    subst he
    have hrest : ∀ x ∈ rest, x = SessEvent.tick := fun x hx => h x (by simp [hx])
    simp only [List.cons_append, List.append_eq, sessRunFrom, sessStep, sessInit_readyOpen,
      sessInit_intervalActive, List.length_cons]
    rw [ih hrest]
    simp [Nat.add_comm]

/-- C5: one session delivers exactly one immediate snapshot at attach
(before any interval event), then one snapshot per interval tick while
attached; after the peer closes or the socket errors (which clear the
interval), no further deliveries occur; the interval is 1000 ms. -/
theorem c5_session_lifecycle :
    (∀ events : List SessEvent, (∀ x ∈ events, x = SessEvent.tick) →
      sessionDeliveries events = 1 + events.length) ∧
    (∀ pre post : List SessEvent, (∀ x ∈ pre, x = SessEvent.tick) →
      sessionDeliveries (pre ++ SessEvent.peerClose :: post) = 1 + pre.length) ∧
    (∀ pre post : List SessEvent, (∀ x ∈ pre, x = SessEvent.tick) →
      sessionDeliveries (pre ++ SessEvent.sockError :: post) = 1 + pre.length) ∧
    updateIntervalMs = 1000 := by
  refine ⟨?_, ?_, ?_, rfl⟩
  · intro events h
    unfold sessionDeliveries
    rw [sessRunFrom_all_ticks events h]
  · intro pre post h
    unfold sessionDeliveries
    rw [sessRunFrom_until_stop SessEvent.peerClose (Or.inl rfl) pre post h]
  · intro pre post h
    unfold sessionDeliveries
    rw [sessRunFrom_until_stop SessEvent.sockError (Or.inr rfl) pre post h]

/-- C5 witness: a session seeing two ticks, then a peer close, then one
more (dead) tick delivers exactly 1 + 2 snapshots. -/
theorem c5_session_lifecycle_witness :
    (∀ x ∈ ([SessEvent.tick, SessEvent.tick] : List SessEvent), x = SessEvent.tick) ∧
    sessionDeliveries ([SessEvent.tick, SessEvent.tick] ++ SessEvent.peerClose ::
        [SessEvent.tick]) =
      1 + ([SessEvent.tick, SessEvent.tick] : List SessEvent).length :=
  ⟨by decide,
    c5_session_lifecycle.2.1 [SessEvent.tick, SessEvent.tick] [SessEvent.tick] (by decide)⟩

end SysMon
